import Mathlib

/-!
# A shallow embedding of the `keai` tree-walking evaluator

This file embeds, in Lean 4, the core of the `keai` interpreter
(package `evaluator`, file `evaluator.go`, plus `utils.go` and
`stdlib_unscoped.go`) and proves/refutes the frozen claims about it.

Modelling conventions:

* keai `Integer` is Go `int64`; we carry it as `Int` and make 64-bit
  wrap-around explicit with `wrap64` exactly where the Go arithmetic can
  overflow.  keai `Float` is Go `float64`; it is carried as `Rat`
  (only its zero test is semantically load-bearing for the claims; the
  float arithmetic branches are mirrored structurally and never
  evaluated by any theorem below).
* Fallible Go operations that can `panic` at runtime (integer division
  by zero, out-of-range slice indexing, `make` with a negative length)
  are made explicit as the `Outcome.goPanic` result; the repository has
  no `recover`, so such a panic crashes the interpreter process.
* `utils.ExitConditionally(c)` (the `utils` package is not under the
  sources provided) terminates the process with exit code `c` when
  running a program (the REPL sets `utils.SetReplOrRun(true)` "so we
  don't os.Exit on errors").  It is modelled as the `Outcome.fatal c`
  result, per the spec: "Fatal.  Aborts the running program with an
  exit code".
* The `object` package (value types, `Environment`) and the
  lexer/parser are not part of the provided sources; where their
  behaviour decides something, the definitions below follow the spec
  (see the individual doc comments starting with `Modelled from the
  spec:`).
-/

namespace Keai

/-- The value-type tags of the `object` package (`object.INTEGER_OBJ`
etc.), as referenced by the evaluator's dispatch code. -/
inductive ObjType where
  | NULL_OBJ
  | BOOLEAN_OBJ
  | INTEGER_OBJ
  | FLOAT_OBJ
  | STRING_OBJ
  | ARRAY_OBJ
  | HASH_OBJ
  | ERROR_OBJ
  | RETURN_VALUE_OBJ
  | MODULE_OBJ
  | BUILTIN_OBJ
deriving DecidableEq, Repr

/-- Modelled from the spec: the textual value of each type tag constant
(`"INTEGER"`, `"ERROR"`, ...), used in diagnostic messages such as
`"%s object doesn't implement the Iterable interface"`.  The constants
live in the `object` package, which is not under the provided sources. -/
def ObjType.goString : ObjType → String
  | .NULL_OBJ => "NULL"
  | .BOOLEAN_OBJ => "BOOLEAN"
  | .INTEGER_OBJ => "INTEGER"
  | .FLOAT_OBJ => "FLOAT"
  | .STRING_OBJ => "STRING"
  | .ARRAY_OBJ => "ARRAY"
  | .HASH_OBJ => "HASH"
  | .ERROR_OBJ => "ERROR"
  | .RETURN_VALUE_OBJ => "RETURN_VALUE"
  | .MODULE_OBJ => "MODULE"
  | .BUILTIN_OBJ => "BUILTIN"

/-- The fields of `object.Error`: message, optional numeric code
(Go `*int`), the raised-from-builtin flag `BuiltinCall`, and the
optional serialized data payload. -/
structure ErrorObj where
  message : String
  code : Option Int := none
  builtinCall : Bool := false
  data : Option String := none
deriving Repr

/-- The keai value universe (`object.Object`).  Reference values
(arrays, hashes, ...) are carried by value here; `Obj.booleanO` and
`Obj.nullO` stand for the process-wide singletons `TRUE`/`FALSE`/`NULL`
(the evaluator only ever creates booleans through
`nativeBoolToBooleanObject`, which returns the singletons, so identity
comparison against the singletons coincides with value comparison).
Functions and files are not carried: no claim evaluates them. -/
inductive Obj where
  | nullO
  | booleanO (b : Bool)
  | integerO (n : Int)
  | floatO (q : Rat)
  | stringO (s : String)
  | arrayO (elements : List Obj)
  | hashO (pairs : List (Obj × Obj))
  | errorO (e : ErrorObj)
  | returnO (v : Obj)
  | moduleO (name : String) (attrs : Obj)
  | builtinO (name : String)
deriving Repr

/-- `Object.Type()`. -/
def Obj.type : Obj → ObjType
  | .nullO => .NULL_OBJ
  | .booleanO _ => .BOOLEAN_OBJ
  | .integerO _ => .INTEGER_OBJ
  | .floatO _ => .FLOAT_OBJ
  | .stringO _ => .STRING_OBJ
  | .arrayO _ => .ARRAY_OBJ
  | .hashO _ => .HASH_OBJ
  | .errorO _ => .ERROR_OBJ
  | .returnO _ => .RETURN_VALUE_OBJ
  | .moduleO _ _ => .MODULE_OBJ
  | .builtinO _ => .BUILTIN_OBJ

/-- The Go type assertion `left.(*object.Integer).Value`; only reached
behind a dispatch guaranteeing the tag. -/
def Obj.intValue : Obj → Int
  | .integerO n => n
  | _ => 0

/-- The Go type assertion `.(*object.Float).Value`. -/
def Obj.floatValue : Obj → Rat
  | .floatO q => q
  | _ => 0

/-- The Go type assertion `.(*object.String).Value`. -/
def Obj.strValue : Obj → String
  | .stringO s => s
  | _ => ""

mutual

/-- `Object.Inspect()`.  The `object` package is not under the provided
sources; the cases fixed by the spec (§4.A, §8) are: Strings inspect to
their raw value, Null inspects to `null`, Booleans to `true`/`false`
(load-bearing for `evalBooleanInfixExpression`), Arrays to `[a, b, c]`.
The remaining cases are stable placeholders that no theorem depends
on. -/
def Obj.inspect : Obj → String
  | .nullO => "null"
  | .booleanO b => if b then "true" else "false"
  | .integerO n => toString n
  | .floatO q => toString q
  | .stringO s => s
  | .arrayO xs => "[" ++ inspectList xs ++ "]"
  | .hashO ps => "\x7b" ++ inspectPairs ps ++ "\x7d"
  | .errorO e => "ERROR: " ++ e.message
  | .returnO v => v.inspect
  | .moduleO n _ => "module " ++ n
  | .builtinO _ => "builtin function"

/-- Comma-separated inspection of array elements. -/
def Obj.inspectList : List Obj → String
  | [] => ""
  | [x] => x.inspect
  | x :: rest => x.inspect ++ ", " ++ inspectList rest

/-- Comma-separated inspection of hash pairs. -/
def Obj.inspectPairs : List (Obj × Obj) → String
  | [] => ""
  | [(k, v)] => k.inspect ++ ": " ++ v.inspect
  | (k, v) :: rest => k.inspect ++ ": " ++ v.inspect ++ ", " ++ inspectPairs rest

end

/-- `NewError` (`utils.go`): format a message into an `object.Error`
with all optional fields zero (`BuiltinCall` is false). -/
def NewErrorO (message : String) : Obj :=
  .errorO { message := message }

/-- `isError` (`evaluator.go`). -/
def isError (o : Obj) : Bool :=
  o.type == .ERROR_OBJ

/-- `isTruthy` (`evaluator.go`).  The Go code switches on interface
identity against the singletons `TRUE`, `FALSE`, `NULL` and returns
`true` in the default case; in the evaluator every Boolean/Null value
is one of the singletons, so the identity test coincides with this
value-level match.  Note this is NOT `objectToNativeBoolean`: an empty
string, `0`, `0.0`, `[]` and `{}` all fall into the default case and
are truthy here. -/
def isTruthy : Obj → Bool
  | .booleanO b => b
  | .nullO => false
  | _ => true

/-- `objectToNativeBoolean` (`evaluator.go`): the fine-grained
truthiness used only by the `&&`/`||` branches of
`evalInfixExpression`.  A `ReturnValue` is unwrapped one level first. -/
def objectToNativeBoolean (o : Obj) : Bool :=
  let o' := match o with
    | .returnO v => v
    | _ => o
  match o' with
  | .booleanO b => b
  | .stringO s => s ≠ ""
  | .nullO => false
  | .integerO n => n ≠ 0
  | .floatO q => q ≠ 0
  | .arrayO xs => !xs.isEmpty
  | .hashO ps => !ps.isEmpty
  | _ => true

/-- `nativeBoolToBooleanObject` (`evaluator.go`): returns the singleton
`TRUE`/`FALSE`. -/
def nativeBoolToBooleanObject (input : Bool) : Obj :=
  .booleanO input

/-- Two's-complement wrap-around of Go `int64` arithmetic, made
explicit. -/
def wrap64 (z : Int) : Int :=
  (z + 2 ^ 63) % 2 ^ 64 - 2 ^ 63

/-- The result of evaluating a node.  `val` is an ordinary
`object.Object` result, `nilV` is a Go `nil` result (an empty
block/unhandled node), `fatal c` is process termination with exit code
`c` through `utils.ExitConditionally` (modelled from the spec: "Fatal.
Aborts the running program with an exit code"), and `goPanic` is an
unrecovered Go runtime panic (the repository has no `recover`).
`outOfFuel` is a pure proof artifact: the evaluator below is defined by
structural recursion on an explicit budget and signals an exhausted
budget with it; it corresponds to no behaviour of the Go code, and
every theorem below supplies a sufficient budget, so it never occurs in
any conclusion. -/
inductive Outcome where
  | val (o : Obj)
  | nilV
  | fatal (code : Int)
  | goPanic (msg : String)
  | outOfFuel
deriving Repr

/-- Whether an outcome is the controlled fatal-exit path
(`utils.ExitConditionally`), as opposed to an ordinary value or an
unrecovered runtime panic. -/
def Outcome.isFatal : Outcome → Bool
  | .fatal _ => true
  | _ => false

/-- `int64(math.Pow(float64(l), float64(r)))` in the `**` branch.  The
Go code round-trips through IEEE-754 `float64`; this model is exact
only where `float64` is (small magnitudes, non-negative exponents) and
is never evaluated by any theorem below. -/
def goIntPow (a b : Int) : Int :=
  if 0 ≤ b then wrap64 (a ^ b.toNat) else 0

/-- `leftVal << uint64(rightVal)` on `int64`: the shift count is the
`uint64` reinterpretation of `rightVal`, so a negative or ≥ 64 count
yields 0. -/
def goShl (a b : Int) : Int :=
  if 0 ≤ b ∧ b < 64 then wrap64 (a * 2 ^ b.toNat) else 0

/-- `leftVal >> uint64(rightVal)` on `int64`: arithmetic shift (floor
division by a power of two); a negative or ≥ 64 count leaves only the
sign. -/
def goShr (a b : Int) : Int :=
  if 0 ≤ b ∧ b < 64 then Int.fdiv a (2 ^ b.toNat) else if a < 0 then -1 else 0

/-- The element-building loop of the `..` branch of
`evalIntegerInfixExpression`: `array[i] = leftVal; leftVal++` repeated
`len` times (the increment is `int64` and hence wraps). -/
def rangeElems (cur : Int) : Nat → List Obj
  | 0 => []
  | k + 1 => .integerO cur :: rangeElems (wrap64 (cur + 1)) k

/-- `evalIntegerInfixExpression` (`evaluator.go`).  Go `int64`
arithmetic wraps (`wrap64`); `/` and `%` with a zero right operand are
an unrecovered runtime panic, and the `..` branch runs
`make([]OBJ, len)` with `len := int(rightVal-leftVal) + 1`, which
panics when that length is negative. -/
def evalIntegerInfixExpression (operator : String) (left right : Obj) : Outcome :=
  let leftVal := left.intValue
  let rightVal := right.intValue
  if operator = "+" then .val (.integerO (wrap64 (leftVal + rightVal)))
  else if operator = "+=" then .val (.integerO (wrap64 (leftVal + rightVal)))
  else if operator = "%" then
    if rightVal = 0 then .goPanic "integer divide by zero"
    else .val (.integerO (Int.tmod leftVal rightVal))
  else if operator = "**" then .val (.integerO (goIntPow leftVal rightVal))
  else if operator = "-" then .val (.integerO (wrap64 (leftVal - rightVal)))
  else if operator = "-=" then .val (.integerO (wrap64 (leftVal - rightVal)))
  else if operator = "*" then .val (.integerO (wrap64 (leftVal * rightVal)))
  else if operator = "*=" then .val (.integerO (wrap64 (leftVal * rightVal)))
  else if operator = "/" then
    if rightVal = 0 then .goPanic "integer divide by zero"
    else .val (.integerO (wrap64 (Int.tdiv leftVal rightVal)))
  else if operator = "/=" then
    if rightVal = 0 then .goPanic "integer divide by zero"
    else .val (.integerO (wrap64 (Int.tdiv leftVal rightVal)))
  else if operator = "<" then .val (nativeBoolToBooleanObject (leftVal < rightVal))
  else if operator = "<=" then .val (nativeBoolToBooleanObject (leftVal ≤ rightVal))
  else if operator = ">" then .val (nativeBoolToBooleanObject (leftVal > rightVal))
  else if operator = ">=" then .val (nativeBoolToBooleanObject (leftVal ≥ rightVal))
  else if operator = "==" then .val (nativeBoolToBooleanObject (leftVal = rightVal))
  else if operator = "!=" then .val (nativeBoolToBooleanObject (leftVal ≠ rightVal))
  else if operator = "|" then .val (.integerO (Int.lor leftVal rightVal))
  else if operator = "^" then .val (.integerO (Int.xor leftVal rightVal))
  else if operator = "&" then .val (.integerO (Int.land leftVal rightVal))
  else if operator = "<<" then .val (.integerO (goShl leftVal rightVal))
  else if operator = ">>" then .val (.integerO (goShr leftVal rightVal))
  else if operator = ".." then
    let len := wrap64 (wrap64 (rightVal - leftVal) + 1)
    if len < 0 then .goPanic "makeslice: len out of range"
    else .val (.arrayO (rangeElems leftVal len.toNat))
  else
    .val (NewErrorO s!"unknown operator: {left.type.goString} {operator} {right.type.goString}")

/-- `math.Pow` on `float64`, idealized over the `Rat` carrier; never
evaluated by any theorem below. -/
def goFloatPow (_x _y : Rat) : Rat := 0

/-- `evalFloatInfixExpression` (`evaluator.go`).  `float64` is carried
as `Rat`; `/` by zero yields IEEE infinities in Go, which the `Rat`
carrier idealizes as 0 — no claim evaluates these branches. -/
def evalFloatInfixExpression (operator : String) (left right : Obj) : Outcome :=
  let leftVal := left.floatValue
  let rightVal := right.floatValue
  if operator = "+" then .val (.floatO (leftVal + rightVal))
  else if operator = "+=" then .val (.floatO (leftVal + rightVal))
  else if operator = "-" then .val (.floatO (leftVal - rightVal))
  else if operator = "-=" then .val (.floatO (leftVal - rightVal))
  else if operator = "*" then .val (.floatO (leftVal * rightVal))
  else if operator = "*=" then .val (.floatO (leftVal * rightVal))
  else if operator = "**" then .val (.floatO (goFloatPow leftVal rightVal))
  else if operator = "/" then .val (.floatO (leftVal / rightVal))
  else if operator = "/=" then .val (.floatO (leftVal / rightVal))
  else if operator = "<" then .val (nativeBoolToBooleanObject (leftVal < rightVal))
  else if operator = "<=" then .val (nativeBoolToBooleanObject (leftVal ≤ rightVal))
  else if operator = ">" then .val (nativeBoolToBooleanObject (leftVal > rightVal))
  else if operator = ">=" then .val (nativeBoolToBooleanObject (leftVal ≥ rightVal))
  else if operator = "==" then .val (nativeBoolToBooleanObject (leftVal = rightVal))
  else if operator = "!=" then .val (nativeBoolToBooleanObject (leftVal ≠ rightVal))
  else
    .val (NewErrorO s!"unknown operator: {left.type.goString} {operator} {right.type.goString}")

/-- `evalFloatIntegerInfixExpression` (`evaluator.go`): Float op
Integer, the right operand coerced to `float64`. -/
def evalFloatIntegerInfixExpression (operator : String) (left right : Obj) : Outcome :=
  evalFloatInfixExpression operator left (.floatO (right.intValue : Rat))

/-- `evalIntegerFloatInfixExpression` (`evaluator.go`): Integer op
Float, the left operand coerced to `float64`.  (The Go source repeats
the same operator switch three times; the float switches are identical,
so the coercing variants are expressed by pre-coercing the operand.) -/
def evalIntegerFloatInfixExpression (operator : String) (left right : Obj) : Outcome :=
  evalFloatInfixExpression operator (.floatO (left.intValue : Rat)) right

/-- `evalStringInfixExpression` (`evaluator.go`).  Go compares strings
by bytes; UTF-8 byte order coincides with code-point order, which is
Lean's `String` order. -/
def evalStringInfixExpression (operator : String) (left right : Obj) : Outcome :=
  let l := left.strValue
  let r := right.strValue
  if operator = "==" then .val (nativeBoolToBooleanObject (l = r))
  else if operator = "!=" then .val (nativeBoolToBooleanObject (l ≠ r))
  else if operator = ">=" then .val (nativeBoolToBooleanObject (¬ l < r))
  else if operator = ">" then .val (nativeBoolToBooleanObject (r < l))
  else if operator = "<=" then .val (nativeBoolToBooleanObject (¬ r < l))
  else if operator = "<" then .val (nativeBoolToBooleanObject (l < r))
  else if operator = "+" then .val (.stringO (l ++ r))
  else if operator = "+=" then .val (.stringO (l ++ r))
  else
    .val (NewErrorO s!"unknown operator: {left.type.goString} {operator} {right.type.goString}")

/-- `evalBooleanInfixExpression` (`evaluator.go`): converts both
booleans to strings via `Inspect` and compares those for the four
ordering operators. -/
def evalBooleanInfixExpression (operator : String) (left right : Obj) : Outcome :=
  let l := Obj.stringO left.inspect
  let r := Obj.stringO right.inspect
  if operator = "<" then evalStringInfixExpression operator l r
  else if operator = "<=" then evalStringInfixExpression operator l r
  else if operator = ">" then evalStringInfixExpression operator l r
  else if operator = ">=" then evalStringInfixExpression operator l r
  else
    .val (NewErrorO s!"unknown operator: {left.type.goString} {operator} {right.type.goString}")

/-- Go interface-pointer equality `left == right` as used by the
`==`/`!=` branches of `evalInfixExpression`.  These branches are only
reached when the operands are not both Integer/Float/String (those
pairs are intercepted by the typed branches first).  For the singletons
Null/True/False pointer identity coincides with this value test;
distinct composite values are distinct pointers, hence unequal.  (Two
aliases of one composite object would be pointer-equal; aliasing is not
expressible in a value-level embedding and no claim depends on it.) -/
def goSameObject (l r : Obj) : Bool :=
  match l, r with
  | .nullO, .nullO => true
  | .booleanO a, .booleanO b => a == b
  | _, _ => false

/-- `evalInfixExpression` (`evaluator.go`): dispatch on the operand
type pair, in source order.  Note that the `&&`/`||` branches come
after the Integer/Float/String typed branches, so `1 && 2` is an
unknown-operator error, and before the Boolean/Boolean branch, so
`true && false` does reach them. -/
def evalInfixExpression (operator : String) (left right : Obj) : Outcome :=
  if left.type = .INTEGER_OBJ ∧ right.type = .INTEGER_OBJ then
    evalIntegerInfixExpression operator left right
  else if left.type = .FLOAT_OBJ ∧ right.type = .FLOAT_OBJ then
    evalFloatInfixExpression operator left right
  else if left.type = .FLOAT_OBJ ∧ right.type = .INTEGER_OBJ then
    evalFloatIntegerInfixExpression operator left right
  else if left.type = .INTEGER_OBJ ∧ right.type = .FLOAT_OBJ then
    evalIntegerFloatInfixExpression operator left right
  else if left.type = .STRING_OBJ ∧ right.type = .STRING_OBJ then
    evalStringInfixExpression operator left right
  else if operator = "&&" then
    .val (nativeBoolToBooleanObject
      (objectToNativeBoolean left && objectToNativeBoolean right))
  else if operator = "||" then
    .val (nativeBoolToBooleanObject
      (objectToNativeBoolean left || objectToNativeBoolean right))
  else if operator = "==" then
    .val (nativeBoolToBooleanObject (goSameObject left right))
  else if operator = "!=" then
    .val (nativeBoolToBooleanObject (!goSameObject left right))
  else if left.type = .BOOLEAN_OBJ ∧ right.type = .BOOLEAN_OBJ then
    evalBooleanInfixExpression operator left right
  else if left.type ≠ right.type then
    .val (NewErrorO s!"type mismatch: {left.type.goString} {operator} {right.type.goString}")
  else
    .val (NewErrorO s!"unknown operator: {left.type.goString} {operator} {right.type.goString}")

/-- Update the first binding of `name` in an association frame, or
append a fresh one. -/
def assocSet : List (String × Obj) → String → Obj → List (String × Obj)
  | [], name, v => [(name, v)]
  | (k, w) :: rest, name, v =>
    if k = name then (k, v) :: rest else (k, w) :: assocSet rest name v

/-- Modelled from the spec: `object.Environment` (§3.2, §4.B) — the
`object` package is not under the provided sources.  A scope frame
holds a name→value mapping, an optional permit set (present exactly in
the temporary scopes created for `foreach`) and an optional lexical
parent.  Binding immutability is not carried: no claim exercises it. -/
inductive Env where
  | mk (frame : List (String × Obj)) (permit : Option (List String)) (parent : Option Env)

/-- Modelled from the spec (§4.B): `Get` walks self → parent chain and
returns the first match. -/
def Env.get : Env → String → Option Obj
  | .mk frame _ parent, name =>
    match frame.lookup name with
    | some v => some v
    | none =>
      match parent with
      | some p => p.get name
      | none => none

/-- Whether a name is bound anywhere in the chain. -/
def Env.has : Env → String → Bool
  | .mk frame _ parent, name =>
    (frame.lookup name).isSome ||
      (match parent with
       | some p => p.has name
       | none => false)

/-- Modelled from the spec (§4.B): `Set` — when a permit set is present
and the name is not in it, the write is delegated to the parent;
otherwise the first frame of the chain already holding the name is
updated, and a name bound nowhere is introduced in the current frame
(the case `foreach` relies on for its loop variables). -/
def Env.set : Env → String → Obj → Env
  | .mk frame permit parent, name, v =>
    match permit with
    | some ps =>
      if name ∈ ps then .mk (assocSet frame name v) permit parent
      else
        match parent with
        | some p => .mk frame permit (some (p.set name v))
        | none => .mk (assocSet frame name v) permit parent
    | none =>
      if (frame.lookup name).isSome then .mk (assocSet frame name v) permit parent
      else
        match parent with
        | some p =>
          if p.has name then .mk frame permit (some (p.set name v))
          else .mk (assocSet frame name v) permit parent
        | none => .mk (assocSet frame name v) permit parent

/-- The parent scope (used to step back out of a `foreach` temporary
scope). -/
def Env.parentOf : Env → Env
  | .mk _ _ (some p) => p
  | e => e

/-- `object.NewTemporaryScope(env, permit)` — modelled from the spec
(§4.D for-each): a fresh empty frame whose permit set masks exactly the
loop variables, everything else delegating to `env`. -/
def NewTemporaryScope (env : Env) (permit : List String) : Env :=
  .mk [] (some permit) (some env)

/-- `evalPostfixExpression` (`evaluator.go`): `++`/`--` require the
operand's token literal to be bound to an Integer; they `Set` the
incremented value and return the pre-modification object `arg`. -/
def evalPostfixExpression (env : Env) (operator : String) (name : String) :
    Outcome × Env :=
  if operator = "++" then
    match env.get name with
    | none => (.val (NewErrorO s!"{name} is unknown"), env)
    | some val =>
      match val with
      | .integerO v => (.val (.integerO v), env.set name (.integerO (wrap64 (v + 1))))
      | _ => (.val (NewErrorO s!"{name} is not an int"), env)
  else if operator = "--" then
    match env.get name with
    | none => (.val (NewErrorO s!"{name} is unknown"), env)
    | some val =>
      match val with
      | .integerO v => (.val (.integerO v), env.set name (.integerO (wrap64 (v - 1))))
      | _ => (.val (NewErrorO s!"{name} is not an int"), env)
  else (.val (NewErrorO s!"unknown operator: {operator}"), env)

/-- `evalStringIndexExpression` (`evaluator.go`), `*object.Integer`
index case (a non-Integer index goes to method resolution instead,
outside the claims).  The guard compares the index against the BYTE
length (`len(str)`) with a non-strict `>`, then indexes the RUNE slice
`[]rune(str)`; an index at or past the rune count that passes the
guard is an unrecovered out-of-range panic. -/
def evalStringIndexExpression (str : String) (idx : Int) : Outcome :=
  let max : Int := (str.utf8ByteSize : Int)
  if idx < 0 ∨ idx > max then .val .nullO
  else
    match str.data.get? idx.toNat with
    | some c => .val (.stringO (String.mk [c]))
    | none => .goPanic "index out of range"

/-- The replacement computed for an unescaped `{{…}}` match in
`Interpolate` (`utils.go`): look the inside text up in the environment
(`lk`) and use the value's `Inspect`; otherwise parse the inside text
with a fresh lexer/parser and `Eval` the resulting program in the
current environment — `pe`, whose `Outcome` codomain is exactly what
that evaluation can do: yield a value (`evaluated != nil`, replaced by
its `Inspect`), yield Go `nil` (replaced by empty text), or never
return because the evaluation terminated the process (an unresolved
identifier in the fragment reaches `evalIdentifier`, which prints a
diagnostic and calls `utils.ExitConditionally(1)`) or panicked.  In the
halting cases the whole interpolation — and with it the program — is
cut short, which `Except.error` propagates. -/
def interpolateReplace (lk : String → Option Obj) (pe : String → Outcome) (frag : String) :
    Except Outcome String :=
  match lk frag with
  | some v => .ok v.inspect
  | none =>
    match pe frag with
    | .val o => .ok o.inspect
    | .nilV => .ok ""
    | h => .error h

/-- Prepend a character to the scan result, propagating a halt. -/
def consE (c : Char) : Except Outcome (List Char) → Except Outcome (List Char)
  | .ok cs => .ok (c :: cs)
  | .error h => .error h

/-- Prepend a character list to the scan result, propagating a halt. -/
def appendE (l : List Char) : Except Outcome (List Char) → Except Outcome (List Char)
  | .ok cs => .ok (l ++ cs)
  | .error h => .error h

mutual

/-- The scan of `Interpolate`'s regular expression
`(?s)(\\)?(\{\{)(.*?)(\}\})` over the character list: a (possibly
backslash-escaped) `\x7b\x7b` opens a fragment, everything else is
copied.  A halt from a fragment's fallback evaluation aborts the whole
scan (in Go the process exits inside `ReplaceAllStringFunc`). -/
def interpTop (lk : String → Option Obj) (pe : String → Outcome) :
    List Char → Except Outcome (List Char)
  | [] => .ok []
  | c :: rest =>
    if c = '\\' then
      match rest with
      | '{' :: '{' :: rest2 => interpFrag lk pe true [] rest2
      | r => consE c (interpTop lk pe r)
    else if c = '{' then
      match rest with
      | '{' :: rest2 => interpFrag lk pe false [] rest2
      | r => consE c (interpTop lk pe r)
    else consE c (interpTop lk pe rest)
termination_by l => l.length

/-- Inside an open fragment: collect characters (in reverse in `acc`)
up to the first `\x7d\x7d` (the regex match is lazy).  A fragment that
never closes is no match at all — and then no later match is possible
either, since any later match would need a `\x7d\x7d` — so the text is
emitted unchanged.  An escaped match collapses to itself without the
backslash (`m[1:]`); an unescaped one is replaced via
`interpolateReplace`, whose halt ends the scan. -/
def interpFrag (lk : String → Option Obj) (pe : String → Outcome) (escaped : Bool)
    (acc : List Char) : List Char → Except Outcome (List Char)
  | [] => .ok ((if escaped then ['\\'] else []) ++ '{' :: '{' :: acc.reverse)
  | c :: rest =>
    if c = '}' then
      match rest with
      | '}' :: rest2 =>
        if escaped then
          appendE ('{' :: '{' :: (acc.reverse ++ ['}', '}'])) (interpTop lk pe rest2)
        else
          match interpolateReplace lk pe (String.mk acc.reverse) with
          | .ok r => appendE r.data (interpTop lk pe rest2)
          | .error h => .error h
      | r => interpFrag lk pe escaped (c :: acc) r
    else interpFrag lk pe escaped (c :: acc) rest
termination_by l => l.length

end

/-- `Interpolate` (`utils.go`): `lk` is `env.Get`, `pe` is the
fresh-lexer/parser + `Eval`-in-current-environment fallback.  The
result is the interpolated string, or the halt (fatal exit / panic)
that the fallback evaluation of some fragment died with. -/
def Interpolate (lk : String → Option Obj) (pe : String → Outcome) (str : String) :
    Except Outcome String :=
  match interpTop lk pe str.data with
  | .ok cs => .ok (String.mk cs)
  | .error h => .error h

/-- The built-in registry names populated by the `init` functions of
the provided evaluator sources (`RegisterBuiltin` calls); the CLI adds
`version` at startup. -/
def builtins : List String :=
  ["math.abs", "math.rand", "math.sqrt",
   "fs.glob", "fs.chmod", "fs.mkdir", "fs.open", "fs.stat", "fs.rm",
   "fs.mv", "fs.cp", "fs.tmpl",
   "print", "error", "panic",
   "http.create_client", "version"]

/-- Modelled from the spec (§4.H): the `Reset`/`Next` iterator protocol
of the `object` package (not under the provided sources), fully drained
into the (element, index) sequence the `foreach` loop observes.  Arrays
yield (element, position), strings (single-rune String, position),
hashes (value, key); everything else is not `Iterable`. -/
def iterItems : Obj → Option (List (Obj × Obj))
  | .arrayO xs => some (xs.enum.map fun p => (p.2, Obj.integerO p.1))
  | .stringO s => some (s.data.enum.map fun p => (Obj.stringO (String.mk [p.2]), Obj.integerO p.1))
  | .hashO ps => some (ps.map fun p => (p.2, p.1))
  | _ => none

/-- The sub-AST of the parser's node kinds that the claims exercise
(an `ast.Expression`/`ast.Statement` mix, exactly as `evalContext`
treats them uniformly).  `postOp` carries the operand identifier
(`node.Token.Literal`); `block` is an `ast.BlockStatement`; `ret` an
`ast.ReturnStatement`. -/
inductive Expr where
  | intLit (n : Int)
  | floatLit (q : Rat)
  | boolLit (b : Bool)
  | nullLit
  | strLit (s : String)
  | arrLit (elements : List Expr)
  | identE (name : String)
  | binOp (operator : String) (left right : Expr)
  | postOp (operator : String) (name : String)
  | ifE (cond : Expr) (consequence : Expr) (alternative : Option Expr)
  | block (statements : List Expr)
  | ret (e : Expr)
  | foreachE (ident : String) (index : Option String) (value : Expr) (body : Expr)

/-- The result of `evalExpression` (`evaluator.go`): either the list of
evaluated arguments/elements (a first Error short-circuits into a
singleton list, as in the source) or a halt (fatal exit / panic)
bubbling out. -/
inductive ExpListRes where
  | objs (l : List Obj)
  | halted (o : Outcome)

mutual

/-- `evalContext`/`Eval` (`evaluator.go`) restricted to the node kinds
above.  The cancellation check at the top is a no-op for the background
context the claims run under.  `pe` threads the fresh-instance
parse-and-eval used only by string interpolation (§4.G); its `Outcome`
codomain is what that evaluation can do — yield a value, yield Go
`nil`, or halt the process — and a halt during interpolation halts the
string literal's evaluation.  The
environment is threaded explicitly in place of Go's in-place mutation.
`fuel` is a structural recursion budget (a proof artifact — the Go
recursion is unbounded): it is decremented at every recursive step and
its exhaustion yields `Outcome.outOfFuel`, which never occurs when the
budget is at least the size of the derivation, as in every theorem
below. -/
def eval (pe : String → Outcome) : Nat → Expr → Env → Outcome × Env
  | 0, _, env => (.outOfFuel, env)
  | fuel + 1, e, env =>
    match e with
    | .intLit n => (.val (.integerO n), env)
    | .floatLit q => (.val (.floatO q), env)
    | .boolLit b => (.val (nativeBoolToBooleanObject b), env)
    | .nullLit => (.val .nullO, env)
    | .strLit s =>
      match Interpolate (fun n => env.get n) pe s with
      | .ok str => (.val (.stringO str), env)
      | .error h => (h, env)
    | .arrLit xs =>
      match evalExpression pe fuel xs env with
      | (.objs [o], env1) => if isError o then (.val o, env1) else (.val (.arrayO [o]), env1)
      | (.objs l, env1) => (.val (.arrayO l), env1)
      | (.halted o, env1) => (o, env1)
    | .identE name =>
      -- evalIdentifier: environment, then the builtin registry, then
      -- fatal (prints and utils.ExitConditionally(1); modelled from the
      -- spec §4.C: "unresolved names are fatal").
      match env.get name with
      | some v => (.val v, env)
      | none =>
        if builtins.contains name then (.val (.builtinO name), env)
        else (.fatal 1, env)
    | .binOp op l r =>
      match eval pe fuel l env with
      | (.val left, env1) =>
        if isError left then (.val left, env1)
        else
          match eval pe fuel r env1 with
          | (.val right, env2) =>
            if isError right then (.val right, env2)
            else
              match evalInfixExpression op left right with
              | .val res =>
                if isError res then
                  -- fmt.Printf("Error: ...") + utils.ExitConditionally(1)
                  (.fatal 1, env2)
                else (.val res, env2)
              | other => (other, env2)
          | (other, env2) => (other, env2)
      | (other, env1) => (other, env1)
    | .postOp op name => evalPostfixExpression env op name
    | .ifE c cons alt =>
      match eval pe fuel c env with
      | (.val condition, env1) =>
        if isError condition then (.val condition, env1)
        else if isTruthy condition then eval pe fuel cons env1
        else
          match alt with
          | some a => eval pe fuel a env1
          | none => (.val .nullO, env1)
      | (.nilV, env1) =>
        -- Go isTruthy(nil) falls into the default case: truthy.
        eval pe fuel cons env1
      | (other, env1) => (other, env1)
    | .block stmts => evalBlockStatement pe fuel stmts env
    | .ret e1 =>
      -- evalContext wraps the evaluated value blindly (no isError check).
      match eval pe fuel e1 env with
      | (.val v, env1) => (.val (.returnO v), env1)
      | (other, env1) => (other, env1)
    | .foreachE ident idxName valueE body =>
      -- evalForeachExpression: note there is no isError check on the
      -- evaluated value; a non-Iterable (including an Error) produces the
      -- "doesn't implement the Iterable interface" error.
      match eval pe fuel valueE env with
      | (.val v, env1) =>
        match iterItems v with
        | none =>
          (.val (NewErrorO s!"{v.type.goString} object doesn't implement the Iterable interface"), env1)
        | some items =>
          let permit := match idxName with
            | some ix => [ident, ix]
            | none => [ident]
          evalForeachLoop pe fuel body ident idxName items (NewTemporaryScope env1 permit)
      | (.nilV, env1) => (.goPanic "invalid memory address or nil pointer dereference", env1)
      | (other, env1) => (other, env1)

/-- `evalExpression` (`evaluator.go`): left-to-right, a first Error
short-circuits as the singleton result list. -/
def evalExpression (pe : String → Outcome) : Nat → List Expr → Env → ExpListRes × Env
  | 0, _, env => (.halted .outOfFuel, env)
  | fuel + 1, exps, env =>
    match exps with
    | [] => (.objs [], env)
    | e :: rest =>
      match eval pe fuel e env with
      | (.val o, env1) =>
        if isError o then (.objs [o], env1)
        else
          match evalExpression pe fuel rest env1 with
          | (.objs l, env2) => (.objs (o :: l), env2)
          | (.halted o2, env2) => (.halted o2, env2)
      | (.nilV, env1) => (.halted .nilV, env1)
      | (other, env1) => (.halted other, env1)

/-- `evalBlockStatement` (`evaluator.go`): statements in order; ONLY a
`RETURN_VALUE` result short-circuits the block (an Error result does
not — the block just keeps going and returns the last result). -/
def evalBlockStatement (pe : String → Outcome) : Nat → List Expr → Env → Outcome × Env
  | 0, _, env => (.outOfFuel, env)
  | fuel + 1, stmts, env =>
    match stmts with
    | [] => (.nilV, env)
    | s :: rest =>
      match eval pe fuel s env with
      | (.val o, env1) =>
        if o.type == .RETURN_VALUE_OBJ then (.val o, env1)
        else
          match rest with
          | [] => (.val o, env1)
          | s2 :: r2 => evalBlockStatement pe fuel (s2 :: r2) env1
      | (.nilV, env1) =>
        match rest with
        | [] => (.nilV, env1)
        | s2 :: r2 => evalBlockStatement pe fuel (s2 :: r2) env1
      | (other, env1) => (other, env1)

/-- The iteration loop of `evalForeachExpression` (`evaluator.go`):
bind the loop variable(s) in the temporary scope, evaluate the body,
and test `!isError(rt) && (rt.Type() == RETURN_VALUE || rt.Type() ==
ERROR)` — a test that is FALSE for every Error (because `isError` is
exactly the `ERROR` type test), so only a ReturnValue ever terminates
the loop early.  The loop exits back to the parent scope. -/
def evalForeachLoop (pe : String → Outcome) : Nat → Expr → String → Option String →
    List (Obj × Obj) → Env → Outcome × Env
  | 0, _, _, _, _, child => (.outOfFuel, child)
  | fuel + 1, body, ident, idxName, items, child =>
    match items with
    | [] => (.val .nullO, child.parentOf)
    | (elem, idxV) :: rest =>
      let child1 := child.set ident elem
      let child2 := match idxName with
        | some ix => child1.set ix idxV
        | none => child1
      match eval pe fuel body child2 with
      | (.val rt, child3) =>
        if !isError rt && (rt.type == .RETURN_VALUE_OBJ || rt.type == .ERROR_OBJ) then
          (.val rt, child3.parentOf)
        else evalForeachLoop pe fuel body ident idxName rest child3
      | (.nilV, child3) =>
        -- rt == nil: isError(nil) is false, then rt.Type() dereferences nil.
        (.goPanic "invalid memory address or nil pointer dereference", child3.parentOf)
      | (other, child3) => (other, child3)

end

/-- The call-site result handling of the `ast.CallExpression` case of
`evalContext` (`evaluator.go`, after `ApplyFunction` has produced
`res`): an Error result whose `BuiltinCall` flag is false is printed to
stderr (`Error calling ... : ...`) and the process exits with the
Error's code, defaulting to 1; any other result — including an Error
with the flag set — is simply returned. -/
def evalCallResult (res : Obj) : Outcome :=
  match res with
  | .errorO e =>
    let c := e.code.getD 1
    if !e.builtinCall then .fatal c
    else .val res
  | _ => .val res

/-- The `t.Pairs[key.HashKey()].Value` lookup of `errorFn` for a string
key: the first pair whose key is that String (a missing pair gives Go's
zero `HashPair`, i.e. a nil `Value`, hence `none`). -/
def hashGetStr (pairs : List (Obj × Obj)) (key : String) : Option Obj :=
  match pairs.find? (fun p => match p.1 with
    | .stringO s => s == key
    | _ => false) with
  | some p => some p.2
  | none => none

/-- Modelled from the spec: `Object.JSON(pretty)` lives in the `object`
package, which is not under the provided sources; the spec fixes only
that the `data` field of an Error built by `error(...)` is "serialised
via `json(false)`".  Stood in for by the inspection; no theorem
evaluates it. -/
def Obj.jsonM (o : Obj) (_pretty : Bool) : String :=
  o.inspect

/-- `errorFn` (`stdlib_unscoped.go`), the `error` built-in: from a
String, an Error with that message and `BuiltinCall: true`; from a Hash,
an Error with the recognised `message`/`code`/`data` fields and
`BuiltinCall: true`; anything else (including a wrong argument count)
is an ordinary `NewError` complaint whose flag is false. -/
def errorFn (args : List Obj) : Obj :=
  match args with
  | [arg] =>
    match arg with
    | .stringO s => .errorO { message := s, builtinCall := true }
    | .hashO pairs =>
      let msg := hashGetStr pairs "message"
      let code := hashGetStr pairs "code"
      let data := hashGetStr pairs "data"
      match msg with
      | some (.stringO m) =>
        (match code with
         | some (.integerO c) =>
           (match data with
            | some d => .errorO { message := m, code := some c, builtinCall := true,
                                  data := some (d.jsonM false) }
            | none => .errorO { message := m, code := some c, builtinCall := true })
         | some _ => NewErrorO "error.code should be integer!"
         | none =>
           (match data with
            | some d => .errorO { message := m, builtinCall := true,
                                  data := some (d.jsonM false) }
            | none => .errorO { message := m, builtinCall := true }))
      | some _ => NewErrorO "error.message should be string!"
      | none =>
        (match code with
         | some (.integerO c) =>
           (match data with
            | some d => .errorO { code := some c, builtinCall := true, message := "",
                                  data := some (d.jsonM false) }
            | none => .errorO { code := some c, builtinCall := true, message := "" })
         | some _ => NewErrorO "error.code should be integer!"
         | none =>
           (match data with
            | some d => .errorO { builtinCall := true, message := "",
                                  data := some (d.jsonM false) }
            | none => .errorO { builtinCall := true, message := "" }))
    | _ => NewErrorO "error() expected a string or hash!"
  | _ => NewErrorO s!"wrong number of arguments. got={args.length}, want=1"

/-- `printFn` (`stdlib_unscoped.go`) as the text it writes to standard
output.  `unq` models `strconv.Unquote` of the double-escaped string
(standard library behaviour outside the provided sources; never
exercised by the theorems, whose arguments contain no backslash).  A
String argument containing a backslash takes the unquote path and
returns early — on unquote failure Go prints the original first and
`s` has become the empty string. -/
def printFn (unq : String → Option String) : List Obj → String
  | [] => "\n"
  | arg :: rest =>
    let s := arg.inspect
    -- strings.Contains(s, "\\"): a backslash occurs among the characters
    if arg.type = .STRING_OBJ ∧ s.data.contains '\\' then
      match unq s with
      | some u => u ++ " " ++ "\n"
      | none => s ++ " " ++ "" ++ " " ++ "\n"
    else s ++ " " ++ printFn unq rest

/-- The process-wide module cache `importCache` (`evaluator.go`),
keyed by the import path literal's source text. -/
structure ImportState where
  cache : List (String × Obj)

/-- Modelled from the spec (§4.F): `FindModule` + file read + fresh
lexer/parser/environment evaluation + `ExportedHash` — the guts of
`EvalModule` depend on the filesystem and on packages not under the
provided sources.  `moduleAttrs p = some attrs` means the module named
`p` is located, parsed and evaluated to the exported hash `attrs`;
`none` collapses the failure modes (not found / IO error / parse
error), for which the evaluator returns an `ImportError`-style Error
value rather than aborting. -/
def EvalModule (moduleAttrs : String → Option Obj) (name : String) : Obj :=
  match moduleAttrs name with
  | some attrs => attrs
  | none => NewErrorO s!"ImportError: no module named {name}"

/-- `evalImportExpression` (`evaluator.go`) for a literal path string
`path` (for a literal, `ie.Name.String()` — the cache key — and the
evaluated name coincide with the literal text, per the spec §4.F "the
cache key is the literal path expression as it appears in source").
Returns the resulting object, the updated cache, and how many times the
module's source was actually evaluated (0 on a cache hit or a lookup
failure, 1 on a successful first load). -/
def evalImportExpression (moduleAttrs : String → Option Obj) (path : String)
    (st : ImportState) : Obj × ImportState × Nat :=
  match st.cache.lookup path with
  | some ev => (ev, st, 0)
  | none =>
    let attrs := EvalModule moduleAttrs path
    if isError attrs then (attrs, st, 0)
    else
      let m := Obj.moduleO path attrs
      (m, ⟨(path, m) :: st.cache⟩, 1)

end Keai

namespace Keai

/-! ## Helper lemmas -/

theorem wrap64_eq_self {z : Int} (h1 : -2 ^ 63 ≤ z) (h2 : z < 2 ^ 63) : wrap64 z = z := by
  unfold wrap64
  rw [Int.emod_eq_of_lt (by omega) (by omega)]
  omega

theorem wrap64_add_multiple (x k : Int) : wrap64 (x + 2 ^ 64 * k) = wrap64 x := by
  unfold wrap64
  congr 1
  rw [show x + 2 ^ 64 * k + 2 ^ 63 = x + 2 ^ 63 + 2 ^ 64 * k by ring,
    Int.add_mul_emod_self_left]

theorem wrap64_add_left (z w : Int) : wrap64 (wrap64 z + w) = wrap64 (z + w) := by
  have hz : wrap64 z = z - 2 ^ 64 * ((z + 2 ^ 63) / 2 ^ 64) := by
    unfold wrap64
    rw [Int.emod_def]
    ring
  rw [hz, show z - 2 ^ 64 * ((z + 2 ^ 63) / 2 ^ 64) + w
        = z + w + 2 ^ 64 * (-((z + 2 ^ 63) / 2 ^ 64)) by ring,
    wrap64_add_multiple]

theorem rangeElems_length (cur : Int) (k : Nat) : (rangeElems cur k).length = k := by
  induction k generalizing cur with
  | zero => simp [rangeElems]
  | succ k ih => simp [rangeElems, ih]

theorem rangeElems_get? (cur : Int) (k : Nat) (h1 : -2 ^ 63 ≤ cur) (h2 : cur + k ≤ 2 ^ 63) :
    ∀ i : Nat, i < k → (rangeElems cur k).get? i = some (.integerO (cur + i)) := by
  induction k generalizing cur with
  | zero => intro i hi; omega
  | succ k ih =>
    intro i hi
    cases i with
    | zero => simp [rangeElems]
    | succ i =>
      have hk : 0 < k := by omega
      have hw : wrap64 (cur + 1) = cur + 1 := by
        apply wrap64_eq_self (by omega)
        push_cast at h2 ⊢
        omega
      simp only [rangeElems, List.get?_cons_succ, hw]
      rw [ih (cur + 1) (by omega) (by push_cast at h2 ⊢; omega) i (by omega)]
      congr 2
      push_cast
      ring

theorem length_le_utf8Len (l : List Char) : l.length ≤ String.utf8Len l := by
  induction l with
  | nil => simp
  | cons c cs ih =>
    have := Char.utf8Size_pos c
    simp only [List.length_cons, String.utf8Len_cons]
    omega

theorem length_le_utf8ByteSize (s : String) : s.length ≤ s.utf8ByteSize := by
  cases s with
  | mk data => simpa [String.length] using length_le_utf8Len data

theorem interpTop_cons_other (lk : String → Option Obj) (pe : String → Outcome)
    (c : Char) (rest : List Char) (hc1 : c ≠ '\\') (hc2 : c ≠ '{') :
    interpTop lk pe (c :: rest) = consE c (interpTop lk pe rest) := by
  cases rest with
  | nil =>
    rw [interpTop.eq_4 lk pe c [] (by intro r2 h; cases h) (by intro r2 h; cases h),
      if_neg hc1, if_neg hc2]
  | cons c2 r2 =>
    by_cases h2 : c2 = '{'
    · subst h2
      cases r2 with
      | nil =>
        rw [interpTop.eq_3 lk pe c [] (by intro r h; cases h), if_neg hc1, if_neg hc2]
      | cons c3 r3 =>
        by_cases h3 : c3 = '{'
        · subst h3
          rw [interpTop.eq_2, if_neg hc1, if_neg hc2]
        · rw [interpTop.eq_3 lk pe c (c3 :: r3)
            (by intro r h; injection h with _ h'; injection h' with h1 _; exact h3 h1),
            if_neg hc1, if_neg hc2]
    · rw [interpTop.eq_4 lk pe c (c2 :: r2)
        (by intro r h; injection h with h1 _; exact h2 h1)
        (by intro r h; injection h with h1 _; exact h2 h1), if_neg hc1, if_neg hc2]

theorem interpFrag_cons_other (lk : String → Option Obj) (pe : String → Outcome)
    (escaped : Bool) (acc : List Char) (c : Char) (rest : List Char) (hc : c ≠ '}') :
    interpFrag lk pe escaped acc (c :: rest) = interpFrag lk pe escaped (c :: acc) rest := by
  cases rest with
  | nil =>
    rw [interpFrag.eq_3 lk pe escaped acc c [] (by intro r h; cases h), ite_self]
  | cons c2 r2 =>
    by_cases h2 : c2 = '}'
    · subst h2
      rw [interpFrag.eq_2, if_neg hc]
    · rw [interpFrag.eq_3 lk pe escaped acc c (c2 :: r2)
        (by intro r h; injection h with h1 _; exact h2 h1), ite_self]

theorem interpTop_passthrough (lk : String → Option Obj) (pe : String → Outcome) :
    ∀ (l : List Char), (∀ c ∈ l, c ≠ '\\' ∧ c ≠ '{') → interpTop lk pe l = .ok l := by
  intro l
  induction l with
  | nil => intro _; exact interpTop.eq_1 lk pe
  | cons c rest ih =>
    intro h
    have hc := h c (List.mem_cons_self c rest)
    rw [interpTop_cons_other lk pe c rest hc.1 hc.2,
      ih (fun x hx => h x (List.mem_cons_of_mem _ hx))]
    rfl

theorem interpTop_append_prefix (lk : String → Option Obj) (pe : String → Outcome) :
    ∀ (pre l : List Char), (∀ c ∈ pre, c ≠ '\\' ∧ c ≠ '{') →
      interpTop lk pe (pre ++ l) = appendE pre (interpTop lk pe l) := by
  intro pre
  induction pre with
  | nil =>
    intro l _
    rw [List.nil_append]
    cases hl : interpTop lk pe l <;> rfl
  | cons c rest ih =>
    intro l h
    have hc := h c (List.mem_cons_self c rest)
    rw [List.cons_append, interpTop_cons_other lk pe c (rest ++ l) hc.1 hc.2,
      ih l (fun x hx => h x (List.mem_cons_of_mem _ hx))]
    cases hl : interpTop lk pe l <;> rfl

theorem interpFrag_close (lk : String → Option Obj) (pe : String → Outcome) :
    ∀ (n acc p : List Char), (∀ c ∈ n, c ≠ '}') →
      interpFrag lk pe false acc (n ++ '}' :: '}' :: p)
        = match interpolateReplace lk pe (String.mk (acc.reverse ++ n)) with
          | .ok r => appendE r.data (interpTop lk pe p)
          | .error h => .error h := by
  intro n
  induction n with
  | nil =>
    intro acc p _
    rw [List.nil_append, interpFrag.eq_2, if_pos rfl, if_neg (by simp), List.append_nil]
  | cons c n' ih =>
    intro acc p h
    have hc := h c (List.mem_cons_self c n')
    rw [List.cons_append, interpFrag_cons_other lk pe false acc c _ hc,
      ih (c :: acc) p (fun x hx => h x (List.mem_cons_of_mem _ hx)),
      show (c :: acc).reverse ++ n' = acc.reverse ++ c :: n' by simp]

theorem interpTop_open (lk : String → Option Obj) (pe : String → Outcome) (n p : List Char)
    (hn : ∀ c ∈ n, c ≠ '}' ∧ c ≠ '{') :
    interpTop lk pe ('{' :: '{' :: (n ++ '}' :: '}' :: p))
      = match interpolateReplace lk pe (String.mk n) with
        | .ok r => appendE r.data (interpTop lk pe p)
        | .error h => .error h := by
  have hside : ∀ (r2 : List Char), '{' :: (n ++ '}' :: '}' :: p) = '{' :: '{' :: r2 → False := by
    intro r2 h
    injection h with _ h2
    cases n with
    | nil => injection h2 with h3 _; cases h3
    | cons c n' =>
      injection h2 with h3 _
      exact (hn c (List.mem_cons_self c n')).2 h3
  rw [interpTop.eq_3 lk pe '{' (n ++ '}' :: '}' :: p) hside, if_neg (by decide), if_pos rfl,
    interpFrag_close lk pe n [] p (fun c hc => (hn c hc).1),
    show (([] : List Char).reverse ++ n) = n by simp]

/-- Single-fragment shape of `Interpolate`: a `pre{{name}}post` literal
is interpolated to `pre ++ replacement ++ post` when the fragment's
replacement is computed, and halts with whatever ended the fallback
evaluation otherwise. -/
theorem Interpolate_single_fragment (lk : String → Option Obj) (pe : String → Outcome)
    (pre name post : String)
    (hpre : ∀ c ∈ pre.data, c ≠ '\\' ∧ c ≠ '{')
    (hname : ∀ c ∈ name.data, c ≠ '}' ∧ c ≠ '{')
    (hpost : ∀ c ∈ post.data, c ≠ '\\' ∧ c ≠ '{') :
    Interpolate lk pe (pre ++ "\x7b\x7b" ++ name ++ "\x7d\x7d" ++ post)
      = match interpolateReplace lk pe name with
        | .ok r => .ok (pre ++ r ++ post)
        | .error h => .error h := by
  have hdata : (pre ++ "\x7b\x7b" ++ name ++ "\x7d\x7d" ++ post).data
      = pre.data ++ ('{' :: '{' :: (name.data ++ '}' :: '}' :: post.data)) := by
    simp [String.data_append]
  have hname' : String.mk name.data = name := by cases name; rfl
  unfold Interpolate
  rw [hdata, interpTop_append_prefix lk pe pre.data _ hpre,
    interpTop_open lk pe name.data _ hname, interpTop_passthrough lk pe post.data hpost,
    hname']
  cases hrep : interpolateReplace lk pe name with
  | error h => rfl
  | ok r =>
    show Except.ok (String.mk (pre.data ++ (r.data ++ post.data)))
      = Except.ok (pre ++ r ++ post)
    have : String.mk (pre.data ++ (r.data ++ post.data)) = pre ++ r ++ post := by
      apply String.ext
      simp [String.data_append]
    rw [this]

end Keai

namespace Keai

/-! ## The claims -/

/-- Interpolating a string with no braces and no backslash leaves it
unchanged (and consults no fallback). -/
theorem Interpolate_plain (lk : String → Option Obj) (pe : String → Outcome) (s : String)
    (h : ∀ c ∈ s.data, c ≠ '\\' ∧ c ≠ '{') :
    Interpolate lk pe s = .ok s := by
  unfold Interpolate
  rw [interpTop_passthrough lk pe s.data h]

/-- C1 (counterexample): the claim says that for `l && r` with falsy `l`
the right operand is not evaluated and no error in `r` surfaces, the
result being the Boolean `false`.  In the code, `false && (y++)` with
`y` unbound evaluates the right operand and yields its Error — not the
Boolean `false`. -/
theorem claim1_counterexample :
    (eval (fun _ => Outcome.nilV) 10 (.binOp "&&" (.boolLit false) (.postOp "++" "y"))
      (.mk [] none none)).1 = .val (NewErrorO "y is unknown")
    ∧ Outcome.val (NewErrorO "y is unknown") ≠ .val (nativeBoolToBooleanObject false) := by
  refine ⟨rfl, ?_⟩
  simp [NewErrorO, nativeBoolToBooleanObject]

/-- C1 (amended): `&&`/`||` do NOT short-circuit — `evalContext`
evaluates both operands of every infix expression before dispatching,
so an Error from the right operand propagates even when the left one
already decides the outcome; when neither operand errors and the
operand types are not both-numeric and not both-String, the result is
the Boolean of the combined truthiness; when both operands are
Integers, the typed dispatch intercepts `&&` first and the expression
is an unknown-operator fatal error. -/
theorem claim1_logical_ops_eager :
    (∀ (pe : String → Outcome) (fuel : Nat) (op : String) (l r : Expr)
        (env env1 env2 : Env) (lo ro : Obj),
      eval pe fuel l env = (.val lo, env1) → isError lo = false →
      eval pe fuel r env1 = (.val ro, env2) → isError ro = true →
      eval pe (fuel + 1) (.binOp op l r) env = (.val ro, env2))
    ∧ (∀ lo ro : Obj,
      ¬(lo.type = .INTEGER_OBJ ∧ ro.type = .INTEGER_OBJ) →
      ¬(lo.type = .FLOAT_OBJ ∧ ro.type = .FLOAT_OBJ) →
      ¬(lo.type = .FLOAT_OBJ ∧ ro.type = .INTEGER_OBJ) →
      ¬(lo.type = .INTEGER_OBJ ∧ ro.type = .FLOAT_OBJ) →
      ¬(lo.type = .STRING_OBJ ∧ ro.type = .STRING_OBJ) →
      evalInfixExpression "&&" lo ro
        = .val (nativeBoolToBooleanObject (objectToNativeBoolean lo && objectToNativeBoolean ro))
      ∧ evalInfixExpression "||" lo ro
        = .val (nativeBoolToBooleanObject (objectToNativeBoolean lo || objectToNativeBoolean ro)))
    ∧ (∀ (pe : String → Outcome) (fuel : Nat) (a b : Int) (env : Env),
      eval pe (fuel + 2) (.binOp "&&" (.intLit a) (.intLit b)) env = (.fatal 1, env)) := by
  refine ⟨?_, ?_, ?_⟩
  · intro pe fuel op l r env env1 env2 lo ro h1 he1 h2 he2
    simp [eval, h1, he1, h2, he2]
  · intro lo ro h1 h2 h3 h4 h5
    constructor <;> simp [evalInfixExpression, h1, h2, h3, h4, h5]
  · intro pe fuel a b env
    simp [eval, evalInfixExpression, evalIntegerInfixExpression, isError, Obj.type,
      Obj.intValue, NewErrorO]

/-- C1 (witness): `false && (y++)` with `y` unbound — the left operand
is falsy, the right operand errors, and the infix expression yields
that Error. -/
theorem claim1_witness :
    eval (fun _ => Outcome.nilV) 1 (.boolLit false) (.mk [] none none)
      = (.val (nativeBoolToBooleanObject false), .mk [] none none)
    ∧ isError (nativeBoolToBooleanObject false) = false
    ∧ eval (fun _ => Outcome.nilV) 1 (.postOp "++" "y") (.mk [] none none)
      = (.val (NewErrorO "y is unknown"), .mk [] none none)
    ∧ isError (NewErrorO "y is unknown") = true
    ∧ eval (fun _ => Outcome.nilV) 2 (.binOp "&&" (.boolLit false) (.postOp "++" "y")) (.mk [] none none)
      = (.val (NewErrorO "y is unknown"), .mk [] none none) := by
  refine ⟨rfl, rfl, rfl, rfl, ?_⟩
  exact claim1_logical_ops_eager.1 (fun _ => Outcome.nilV) 1 "&&" (.boolLit false) (.postOp "++" "y")
    (.mk [] none none) (.mk [] none none) (.mk [] none none)
    (nativeBoolToBooleanObject false) (NewErrorO "y is unknown") rfl rfl rfl rfl

/-- C2 (counterexample): the claim says an `if` whose condition is the
empty String takes the alternative; in the code `if "" { 1 } else { 2 }`
yields 1 (the consequent), because `isTruthy` treats everything except
the False and Null singletons as truthy. -/
theorem claim2_counterexample :
    (eval (fun _ => Outcome.nilV) 10 (.ifE (.strLit "") (.block [.intLit 1]) (some (.block [.intLit 2])))
      (.mk [] none none)).1 = .val (.integerO 1)
    ∧ Outcome.val (Obj.integerO 1) ≠ .val (.integerO 2) := by
  constructor
  · have hI : Interpolate (fun n => (Env.mk [] none none).get n) (fun _ => Outcome.nilV) ""
        = .ok "" := Interpolate_plain _ _ "" (by decide)
    simp [eval, hI, evalBlockStatement, isError, isTruthy, Obj.type]
  · simp

/-- C2 (amended): the `if` condition is tested with `isTruthy`, which
treats ONLY the False and Null singletons as falsy — an empty String,
the Integer 0, the Float 0.0, an empty Array and an empty Hash are all
truthy there and select the consequent (the fine-grained falsy list of
the spec's §4.D is `objectToNativeBoolean`, used only by `&&`/`||`). -/
theorem claim2_if_truthiness :
    (isTruthy (.stringO "") = true ∧ isTruthy (.integerO 0) = true
      ∧ isTruthy (.floatO 0) = true ∧ isTruthy (.arrayO []) = true
      ∧ isTruthy (.hashO []) = true
      ∧ isTruthy (.booleanO false) = false ∧ isTruthy .nullO = false
      ∧ ∀ o : Obj, isTruthy o = false ↔ (o = .booleanO false ∨ o = .nullO))
    ∧ (∀ (pe : String → Outcome) (fuel : Nat) (c t : Expr) (a : Option Expr)
        (env env1 : Env) (co : Obj),
      eval pe fuel c env = (.val co, env1) → isError co = false →
      eval pe (fuel + 1) (.ifE c t a) env
        = if isTruthy co then eval pe fuel t env1
          else match a with
               | some alt => eval pe fuel alt env1
               | none => (.val .nullO, env1)) := by
  constructor
  · refine ⟨rfl, rfl, rfl, rfl, rfl, rfl, rfl, ?_⟩
    intro o
    cases o <;> simp [isTruthy]
  · intro pe fuel c t a env env1 co h he
    simp [eval, h, he]

/-- C2 (witness): `if 0 { 5 } else { 6 }` — the Integer 0 condition is
truthy for `isTruthy`, so the consequent is evaluated. -/
theorem claim2_witness :
    eval (fun _ => Outcome.nilV) 1 (.intLit 0) (.mk [] none none)
      = (.val (.integerO 0), .mk [] none none)
    ∧ isError (.integerO 0) = false
    ∧ eval (fun _ => Outcome.nilV) 2 (.ifE (.intLit 0) (.intLit 5) (some (.intLit 6))) (.mk [] none none)
      = (if isTruthy (.integerO 0) then eval (fun _ => Outcome.nilV) 1 (.intLit 5) (.mk [] none none)
         else eval (fun _ => Outcome.nilV) 1 (.intLit 6) (.mk [] none none)) := by
  refine ⟨rfl, rfl, ?_⟩
  have h := claim2_if_truthiness.2 (fun _ => Outcome.nilV) 1 (.intLit 0) (.intLit 5)
    (some (.intLit 6)) (.mk [] none none) (.mk [] none none) (.integerO 0) rfl rfl
  simpa using h

/-- C3: the claim (and the source's own comment, "If we got an
error/return then we handle it") says a body Error terminates the
for-each loop and propagates.  The guard
`!isError(rt) && (rt.Type() == RETURN_VALUE || rt.Type() == ERROR)` is
false for every Error, so the loop swallows Errors and keeps iterating:
`foreach x in [1,2] { s++; y++ }` (with `y` unbound, so each body run
yields an Error after incrementing `s`) runs BOTH iterations (`s` ends
at 2) and yields Null, not the Error — while a ReturnValue in the body
does terminate the loop and propagate as the claim describes. -/
theorem claim3_foreach_error_swallowed :
    eval (fun _ => Outcome.nilV) 20 (.foreachE "x" none (.arrLit [.intLit 1, .intLit 2])
        (.block [.postOp "++" "s", .postOp "++" "y"])) (.mk [("s", .integerO 0)] none none)
      = (.val .nullO, .mk [("s", .integerO 2)] none none)
    ∧ (eval (fun _ => Outcome.nilV) 20 (.block [.postOp "++" "s", .postOp "++" "y"])
        (.mk [("s", .integerO 1)] none none)).1 = .val (NewErrorO "y is unknown")
    ∧ eval (fun _ => Outcome.nilV) 20 (.foreachE "x" none (.arrLit [.intLit 1, .intLit 2])
        (.block [.ret (.intLit 7), .postOp "++" "s"])) (.mk [("s", .integerO 0)] none none)
      = (.val (.returnO (.integerO 7)), .mk [("s", .integerO 0)] none none) :=
  ⟨rfl, rfl, rfl⟩

end Keai

namespace Keai

/-- C4: at a call site, an Error result whose `BuiltinCall` flag is
false aborts the process with the Error's code (default 1); an Error
with the flag — as built by the `error` built-in from a String or a
well-formed Hash — propagates as an ordinary value, and every
non-Error result passes through. -/
theorem claim4_call_error_dispatch :
    (∀ e : ErrorObj, e.builtinCall = false →
      evalCallResult (.errorO e) = .fatal (e.code.getD 1))
    ∧ (∀ e : ErrorObj, e.builtinCall = true → evalCallResult (.errorO e) = .val (.errorO e))
    ∧ (∀ o : Obj, o.type ≠ .ERROR_OBJ → evalCallResult o = .val o)
    ∧ (∀ s : String, errorFn [.stringO s] = .errorO { message := s, builtinCall := true })
    ∧ (∀ (m : String) (c : Int),
      errorFn [.hashO [(.stringO "message", .stringO m), (.stringO "code", .integerO c)]]
        = .errorO { message := m, code := some c, builtinCall := true }) := by
  refine ⟨?_, ?_, ?_, ?_, ?_⟩
  · intro e h
    simp [evalCallResult, h]
  · intro e h
    simp [evalCallResult, h]
  · intro o h
    cases o <;> simp_all [evalCallResult, Obj.type]
  · intro s
    simp [errorFn]
  · intro m c
    simp [errorFn, hashGetStr]

/-- C4 (witness): an Error with code 7 and the flag unset aborts with
exit code 7; one without a code aborts with 1; `error("boom")` builds a
flagged Error that the call site passes through. -/
theorem claim4_witness :
    evalCallResult (.errorO { message := "boom", code := some 7 }) = .fatal 7
    ∧ evalCallResult (.errorO { message := "boom" }) = .fatal 1
    ∧ evalCallResult (errorFn [.stringO "boom"])
        = .val (.errorO { message := "boom", builtinCall := true }) := by
  refine ⟨claim4_call_error_dispatch.1 _ rfl, claim4_call_error_dispatch.1 _ rfl, ?_⟩
  rw [claim4_call_error_dispatch.2.2.2.1 "boom"]
  exact claim4_call_error_dispatch.2.1 _ rfl

/-- C5 (counterexample): the claim says `a..b` with `b < a` evaluates,
without crashing, to the empty Array; in the code `2..0` computes the
slice length `0 - 2 + 1 = -1` and `make([]OBJ, -1)` panics. -/
theorem claim5_counterexample :
    evalIntegerInfixExpression ".." (.integerO 2) (.integerO 0)
      = .goPanic "makeslice: len out of range"
    ∧ Outcome.goPanic "makeslice: len out of range" ≠ .val (.arrayO []) := by
  constructor
  · simp [evalIntegerInfixExpression, wrap64, Obj.intValue]
  · intro h; cases h

/-- C5 (amended): for `a ≤ b` (within `int64`, with no overflow in
`b − a + 1`) the range is the Array of length `b − a + 1` whose element
`i` is `a + i`; for `b = a − 1` it is the empty Array; but for
`b < a − 1` the negative slice length makes the interpreter panic
instead of producing an empty Array. -/
theorem claim5_range_semantics : ∀ a b : Int,
    (-2 ^ 63 ≤ a → b < 2 ^ 63 → a ≤ b → b - a + 1 < 2 ^ 63 →
      evalIntegerInfixExpression ".." (.integerO a) (.integerO b)
        = .val (.arrayO (rangeElems a (b - a + 1).toNat))
      ∧ (rangeElems a (b - a + 1).toNat).length = (b - a + 1).toNat
      ∧ (∀ i : Nat, i < (b - a + 1).toNat →
          (rangeElems a (b - a + 1).toNat).get? i = some (.integerO (a + i))))
    ∧ (b = a - 1 →
      evalIntegerInfixExpression ".." (.integerO a) (.integerO b) = .val (.arrayO []))
    ∧ (-2 ^ 63 ≤ b - a + 1 → b - a + 1 < 0 →
      evalIntegerInfixExpression ".." (.integerO a) (.integerO b)
        = .goPanic "makeslice: len out of range") := by
  intro a b
  have key : evalIntegerInfixExpression ".." (.integerO a) (.integerO b)
      = (if wrap64 (wrap64 (b - a) + 1) < 0 then Outcome.goPanic "makeslice: len out of range"
         else .val (.arrayO (rangeElems a (wrap64 (wrap64 (b - a) + 1)).toNat))) := by
    simp [evalIntegerInfixExpression, Obj.intValue]
  rw [wrap64_add_left] at key
  refine ⟨?_, ?_, ?_⟩
  · intro ha hb hab hlen
    have hw2 : wrap64 (b - a + 1) = b - a + 1 := wrap64_eq_self (by omega) (by omega)
    rw [key, hw2, if_neg (by omega)]
    have hcast : ((b - a + 1).toNat : Int) = b - a + 1 := Int.toNat_of_nonneg (by omega)
    refine ⟨rfl, rangeElems_length _ _, fun i hi => ?_⟩
    exact rangeElems_get? a ((b - a + 1).toNat) (by omega) (by rw [hcast]; omega) i hi
  · intro hb
    subst hb
    have h0 : a - 1 - a + 1 = 0 := by ring
    rw [key, h0, show wrap64 0 = 0 by rfl, if_neg (by omega)]
    rfl
  · intro h1 h2
    have hw2 : wrap64 (b - a + 1) = b - a + 1 := wrap64_eq_self (by omega) (by omega)
    rw [key, hw2, if_pos (by omega)]

/-- C5 (witness): `1..3` is `[1, 2, 3]` — length 3, element 2 being
`1 + 2`. -/
theorem claim5_witness :
    evalIntegerInfixExpression ".." (.integerO 1) (.integerO 3)
      = .val (.arrayO (rangeElems 1 ((3 : Int) - 1 + 1).toNat))
    ∧ (rangeElems 1 ((3 : Int) - 1 + 1).toNat).length = ((3 : Int) - 1 + 1).toNat
    ∧ (rangeElems 1 ((3 : Int) - 1 + 1).toNat).get? 2 = some (.integerO (1 + (2 : Nat))) := by
  obtain ⟨h1, h2, h3⟩ := (claim5_range_semantics 1 3).1
    (by norm_num) (by norm_num) (by norm_num) (by norm_num)
  exact ⟨h1, h2, h3 2 (by norm_num)⟩

/-- C6: the first import of a path evaluates the module once, wraps the
exported hash as a Module value and caches it under the literal path;
every later import of the same literal returns that very Module value
from the cache with no re-evaluation. -/
theorem claim6_import_idempotent :
    (∀ (M : String → Option Obj) (p : String) (st : ImportState) (m : Obj),
      st.cache.lookup p = some m → evalImportExpression M p st = (m, st, 0))
    ∧ (∀ (M : String → Option Obj) (p : String) (st : ImportState) (attrs : Obj),
      st.cache.lookup p = none → M p = some attrs → isError attrs = false →
      (evalImportExpression M p st).1 = .moduleO p attrs
      ∧ ((evalImportExpression M p st).2.1).cache.lookup p = some (.moduleO p attrs)
      ∧ (evalImportExpression M p st).2.2 = 1
      ∧ evalImportExpression M p (evalImportExpression M p st).2.1
          = (.moduleO p attrs, (evalImportExpression M p st).2.1, 0)) := by
  constructor
  · intro M p st m h
    simp [evalImportExpression, h]
  · intro M p st attrs hn hm he
    have h1 : evalImportExpression M p st
        = (.moduleO p attrs, ⟨(p, .moduleO p attrs) :: st.cache⟩, 1) := by
      simp [evalImportExpression, hn, EvalModule, hm, he]
    refine ⟨by rw [h1], ?_, by rw [h1], ?_⟩
    · rw [h1]
      simp [List.lookup]
    · rw [h1]
      simp [evalImportExpression, List.lookup]

/-- C6 (witness): importing `"m"` twice from an empty cache — the
first one builds and caches the Module, the second returns the identical
value with zero further evaluations. -/
theorem claim6_witness :
    (evalImportExpression (fun s => if s = "m" then some (.hashO []) else none) "m" ⟨[]⟩).1
      = .moduleO "m" (.hashO [])
    ∧ (evalImportExpression (fun s => if s = "m" then some (.hashO []) else none) "m" ⟨[]⟩).2.2 = 1
    ∧ evalImportExpression (fun s => if s = "m" then some (.hashO []) else none) "m"
        (evalImportExpression (fun s => if s = "m" then some (.hashO []) else none) "m" ⟨[]⟩).2.1
      = (.moduleO "m" (.hashO []),
         (evalImportExpression (fun s => if s = "m" then some (.hashO []) else none) "m" ⟨[]⟩).2.1,
         0) := by
  have h := claim6_import_idempotent.2 (fun s => if s = "m" then some (.hashO []) else none)
    "m" ⟨[]⟩ (.hashO []) rfl (by simp) rfl
  exact ⟨h.1, h.2.2.1, h.2.2.2⟩

/-- C7: `x++`/`x--` on an identifier bound to an Integer `n` rebind it
to `n + 1` (resp. `n − 1`, within `int64`) and yield the
pre-modification Integer `n`; an unbound or non-Integer operand yields
an Error. -/
theorem claim7_postfix_semantics :
    (∀ (env : Env) (x : String) (n : Int), -2 ^ 63 ≤ n → n + 1 < 2 ^ 63 →
      env.get x = some (.integerO n) →
      evalPostfixExpression env "++" x = (.val (.integerO n), env.set x (.integerO (n + 1))))
    ∧ (∀ (env : Env) (x : String) (n : Int), -2 ^ 63 ≤ n - 1 → n < 2 ^ 63 →
      env.get x = some (.integerO n) →
      evalPostfixExpression env "--" x = (.val (.integerO n), env.set x (.integerO (n - 1))))
    ∧ (∀ (env : Env) (x : String), env.get x = none →
      evalPostfixExpression env "++" x = (.val (NewErrorO s!"{x} is unknown"), env)
      ∧ evalPostfixExpression env "--" x = (.val (NewErrorO s!"{x} is unknown"), env))
    ∧ (∀ (env : Env) (x : String) (v : Obj), env.get x = some v → v.type ≠ .INTEGER_OBJ →
      evalPostfixExpression env "++" x = (.val (NewErrorO s!"{x} is not an int"), env)
      ∧ evalPostfixExpression env "--" x = (.val (NewErrorO s!"{x} is not an int"), env)) := by
  refine ⟨?_, ?_, ?_, ?_⟩
  · intro env x n h1 h2 hget
    have hw : wrap64 (n + 1) = n + 1 := wrap64_eq_self (by omega) (by omega)
    simp [evalPostfixExpression, hget, hw]
  · intro env x n h1 h2 hget
    have hw : wrap64 (n - 1) = n - 1 := wrap64_eq_self (by omega) (by omega)
    simp [evalPostfixExpression, hget, hw]
  · intro env x hget
    constructor <;> simp [evalPostfixExpression, hget]
  · intro env x v hget hv
    cases v <;> simp_all [evalPostfixExpression, Obj.type]

/-- C7 (witness): with `x` bound to 5, `x++` yields 5 and rebinds `x`
to 6, observably via a subsequent lookup. -/
theorem claim7_witness :
    (Env.mk [("x", .integerO 5)] none none).get "x" = some (.integerO 5)
    ∧ evalPostfixExpression (Env.mk [("x", .integerO 5)] none none) "++" "x"
        = (.val (.integerO 5), (Env.mk [("x", .integerO 5)] none none).set "x" (.integerO 6))
    ∧ ((Env.mk [("x", .integerO 5)] none none).set "x" (.integerO 6)).get "x"
        = some (.integerO 6) := by
  refine ⟨rfl, ?_, rfl⟩
  have h := claim7_postfix_semantics.1 (Env.mk [("x", .integerO 5)] none none) "x" 5
    (by norm_num) (by norm_num) rfl
  simpa using h

/-- C8 (counterexample): the claim says `print("x=\x7b\x7by\x7d\x7d")` with `y`
unbound prints `x=` followed by a newline without aborting.  But the
fallback for an unbound fragment parses the inside text and evaluates
it in the current environment, and evaluating the unbound identifier
`y` is the in-source `evalIdentifier` path: it prints a diagnostic and
exits via `utils.ExitConditionally(1)`.  Instantiating the fallback
with this file's own evaluation of the identifier node, the
interpolation halts with the fatal exit — `print` is never reached and
the result is not the string `"x="`. -/
theorem claim8_counterexample :
    Interpolate (fun _ => none)
        (fun frag => (eval (fun _ => Outcome.nilV) 10 (.identE frag) (.mk [] none none)).1)
        "x=\x7b\x7by\x7d\x7d" = .error (.fatal 1)
    ∧ (Except.error (Outcome.fatal 1) : Except Outcome String) ≠ .ok "x=" := by
  constructor
  · have h := Interpolate_single_fragment (fun _ => none)
      (fun frag => (eval (fun _ => Outcome.nilV) 10 (.identE frag) (.mk [] none none)).1)
      "x=" "y" "" (by decide) (by decide) (by decide)
    have happ : ("x=" ++ "\x7b\x7b" ++ "y" ++ "\x7d\x7d" ++ "" : String)
        = "x=\x7b\x7by\x7d\x7d" := by decide
    rw [happ] at h
    rw [h]
    rfl
  · intro h; cases h

/-- C8 (amended): a bound `{{name}}` fragment is replaced by the
value's inspection; for an unbound name the inside text is parsed and
evaluated in the current environment — the fragment is replaced by the
result's inspection when that evaluation yields a value, and by empty
text when it yields nothing (Go `nil`); but when the evaluation halts
the process, as it does for an unbound identifier fragment
(`evalIdentifier` prints a diagnostic and exits with code 1), the whole
interpolation — and the program — aborts instead of substituting empty
text. -/
theorem claim8_interpolation :
    (∀ (lk : String → Option Obj) (pe : String → Outcome) (pre name post : String),
      (∀ c ∈ pre.data, c ≠ '\\' ∧ c ≠ '{') →
      (∀ c ∈ name.data, c ≠ '}' ∧ c ≠ '{') →
      (∀ c ∈ post.data, c ≠ '\\' ∧ c ≠ '{') →
      Interpolate lk pe (pre ++ "\x7b\x7b" ++ name ++ "\x7d\x7d" ++ post)
        = match interpolateReplace lk pe name with
          | .ok r => .ok (pre ++ r ++ post)
          | .error h => .error h)
    ∧ (∀ (lk : String → Option Obj) (pe : String → Outcome) (v : Obj) (name : String),
      lk name = some v → interpolateReplace lk pe name = .ok v.inspect)
    ∧ (∀ (lk : String → Option Obj) (pe : String → Outcome) (name : String),
      lk name = none → pe name = .nilV → interpolateReplace lk pe name = .ok "")
    ∧ (∀ (lk : String → Option Obj) (pe : String → Outcome) (name : String) (c : Int),
      lk name = none → pe name = .fatal c → interpolateReplace lk pe name = .error (.fatal c))
    ∧ (∀ (pe : String → Outcome) (fuel : Nat) (env : Env),
      env.get "y" = none → eval pe (fuel + 1) (.identE "y") env = (.fatal 1, env)) := by
  refine ⟨Interpolate_single_fragment, ?_, ?_, ?_, ?_⟩
  · intro lk pe v name h
    simp [interpolateReplace, h]
  · intro lk pe name h1 h2
    simp [interpolateReplace, h1, h2]
  · intro lk pe name c h1 h2
    simp [interpolateReplace, h1, h2]
  · intro pe fuel env h
    simp [eval, h]
    decide

/-- C8 (witness): a bound fragment — `"x=\x7b\x7by\x7d\x7d"` with `y` bound
to the Integer 42 interpolates to `x=42` — and the unbound-identifier
fallback: evaluating `y` in an empty environment is the fatal exit. -/
theorem claim8_witness :
    Interpolate (fun n => if n = "y" then some (.integerO 42) else none) (fun _ => Outcome.nilV)
        ("x=" ++ "\x7b\x7b" ++ "y" ++ "\x7d\x7d" ++ "")
      = .ok ("x=" ++ (Obj.integerO 42).inspect ++ "")
    ∧ eval (fun _ => Outcome.nilV) 10 (.identE "y") (.mk [] none none)
      = (.fatal 1, .mk [] none none) := by
  constructor
  · have h := claim8_interpolation.1 (fun n => if n = "y" then some (.integerO 42) else none)
      (fun _ => Outcome.nilV) "x=" "y" "" (by decide) (by decide) (by decide)
    rw [h]
    rfl
  · exact claim8_interpolation.2.2.2.2 (fun _ => Outcome.nilV) 9 (.mk [] none none) rfl

/-- C9 (counterexample): the claim says `a / 0` is a controlled fatal
error (the guarded divisor-zero branch producing the fatal-error
result); in the code the division is unguarded, so `1 / 0` is a Go
runtime panic — not the evaluator's fatal-exit path. -/
theorem claim9_counterexample :
    evalIntegerInfixExpression "/" (.integerO 1) (.integerO 0)
      = .goPanic "integer divide by zero"
    ∧ (evalIntegerInfixExpression "/" (.integerO 1) (.integerO 0)).isFatal = false := by
  constructor
  · simp [evalIntegerInfixExpression, Obj.intValue]
  · simp [evalIntegerInfixExpression, Obj.intValue, Outcome.isFatal]

/-- C9 (amended): `a / 0` and `a % 0` raise an unguarded Go runtime
panic (an uncontrolled crash of the interpreter, not the
fatal-error/exit path); for `b ≠ 0` the division is deterministic,
yielding the truncated quotient. -/
theorem claim9_div_by_zero_panics : ∀ a b : Int,
    evalIntegerInfixExpression "/" (.integerO a) (.integerO 0)
      = .goPanic "integer divide by zero"
    ∧ evalIntegerInfixExpression "%" (.integerO a) (.integerO 0)
      = .goPanic "integer divide by zero"
    ∧ (evalIntegerInfixExpression "/" (.integerO a) (.integerO 0)).isFatal = false
    ∧ (b ≠ 0 → evalIntegerInfixExpression "/" (.integerO a) (.integerO b)
        = .val (.integerO (wrap64 (Int.tdiv a b)))) := by
  intro a b
  refine ⟨?_, ?_, ?_, fun hb => ?_⟩
  · simp [evalIntegerInfixExpression, Obj.intValue]
  · simp [evalIntegerInfixExpression, Obj.intValue]
  · simp [evalIntegerInfixExpression, Obj.intValue, Outcome.isFatal]
  · simp [evalIntegerInfixExpression, Obj.intValue, hb]

/-- C9 (witness): `7 / 2` is the Integer 3. -/
theorem claim9_witness :
    evalIntegerInfixExpression "/" (.integerO 7) (.integerO 2)
      = .val (.integerO (wrap64 (Int.tdiv 7 2))) :=
  (claim9_div_by_zero_panics 7 2).2.2.2 (by norm_num)

/-- C10 (counterexample): the claim says `s[i]` yields Null for every
`i` outside the rune range, in particular for `i` equal to the length;
in the code `"a"[1]` passes the `idx > len(str)` guard (which is not
strict) and the rune indexing panics. -/
theorem claim10_counterexample :
    evalStringIndexExpression "a" 1 = .goPanic "index out of range"
    ∧ Outcome.goPanic "index out of range" ≠ .val .nullO := by
  constructor
  · rfl
  · intro h; cases h

/-- C10 (amended): `s[i]` yields a single-rune String for
`0 ≤ i <` rune count, Null for `i < 0` or `i >` byte length, and
PANICS (index out of range) for rune count `≤ i ≤` byte length — the
guard compares against the byte length non-strictly and then indexes
the rune slice. -/
theorem claim10_string_index : ∀ (s : String) (i : Int),
    (∀ c : Char, 0 ≤ i → s.data.get? i.toNat = some c →
      evalStringIndexExpression s i = .val (.stringO (String.mk [c])))
    ∧ (i < 0 ∨ (s.utf8ByteSize : Int) < i → evalStringIndexExpression s i = .val .nullO)
    ∧ ((s.length : Int) ≤ i → i ≤ (s.utf8ByteSize : Int) →
      evalStringIndexExpression s i = .goPanic "index out of range") := by
  intro s i
  refine ⟨?_, ?_, ?_⟩
  · intro c h0 hget
    have hlen : i.toNat < s.data.length := (List.get?_eq_some.mp hget).1
    have hbyte : s.data.length ≤ s.utf8ByteSize := length_le_utf8ByteSize s
    rw [evalStringIndexExpression, if_neg (by omega), hget]
  · intro h
    rw [evalStringIndexExpression, if_pos (by omega)]
  · intro h1 h2
    have hlq : (s.length : Int) = (s.data.length : Int) := by
      cases s
      rfl
    rw [hlq] at h1
    have hlen : s.data.length ≤ i.toNat := by omega
    have hget : s.data.get? i.toNat = none := List.get?_eq_none.mpr hlen
    rw [evalStringIndexExpression, if_neg (by omega), hget]

/-- C10 (witness): `"ab"[1]` is the single-rune String `"b"`. -/
theorem claim10_witness :
    ("ab" : String).data.get? (1 : Int).toNat = some 'b'
    ∧ evalStringIndexExpression "ab" 1 = .val (.stringO (String.mk ['b'])) := by
  refine ⟨by decide, (claim10_string_index "ab" 1).1 'b' (by norm_num) (by decide)⟩

end Keai
